import Mathlib

/-!
Shallow embedding of the tg-video-server catalog core: the identity deriver
(`VideoManager._generate_video_id`, `app.get_video_id`), the catalog store
(`DatabaseManager`), the reconciler (`VideoManager.track_video` /
`track_all_videos`), the upload orchestrators (`VideoManager.upload_video` /
`upload_all_videos`, `ClipManager.upload_clip`), the time-code parser
(`ClipCreator._convert_time_to_seconds`) and the clip filename avoidance loop
(`ClipCreator.create_clip`), together with theorems settling the frozen claims
about them.

Machine integers are modelled as `Nat`/`Int` with explicit wrap-around where
the source wraps; Python float arithmetic (`round(video_id / 1000)`) is
modelled exactly, as correctly rounded IEEE-754 binary64 division followed by
round-half-even to an integer, expressed in integer arithmetic.
-/

set_option maxRecDepth 20000

namespace TgVideo

/-! ## MD5 (Python `hashlib.md5`), as used by the identity deriver -/

def mask32 : Nat := 4294967295

def add32 (a b : Nat) : Nat := (a + b) % 4294967296

def not32 (a : Nat) : Nat := a ^^^ mask32

def rotl32 (a n : Nat) : Nat := ((a <<< n) ||| (a >>> (32 - n))) &&& mask32

def md5K : List Nat :=
  [0xd76aa478, 0xe8c7b756, 0x242070db, 0xc1bdceee,
   0xf57c0faf, 0x4787c62a, 0xa8304613, 0xfd469501,
   0x698098d8, 0x8b44f7af, 0xffff5bb1, 0x895cd7be,
   0x6b901122, 0xfd987193, 0xa679438e, 0x49b40821,
   0xf61e2562, 0xc040b340, 0x265e5a51, 0xe9b6c7aa,
   0xd62f105d, 0x02441453, 0xd8a1e681, 0xe7d3fbc8,
   0x21e1cde6, 0xc33707d6, 0xf4d50d87, 0x455a14ed,
   0xa9e3e905, 0xfcefa3f8, 0x676f02d9, 0x8d2a4c8a,
   0xfffa3942, 0x8771f681, 0x6d9d6122, 0xfde5380c,
   0xa4beea44, 0x4bdecfa9, 0xf6bb4b60, 0xbebfbc70,
   0x289b7ec6, 0xeaa127fa, 0xd4ef3085, 0x04881d05,
   0xd9d4d039, 0xe6db99e5, 0x1fa27cf8, 0xc4ac5665,
   0xf4292244, 0x432aff97, 0xab9423a7, 0xfc93a039,
   0x655b59c3, 0x8f0ccc92, 0xffeff47d, 0x85845dd1,
   0x6fa87e4f, 0xfe2ce6e0, 0xa3014314, 0x4e0811a1,
   0xf7537e82, 0xbd3af235, 0x2ad7d2bb, 0xeb86d391]

def md5S : List Nat :=
  [7, 12, 17, 22, 7, 12, 17, 22, 7, 12, 17, 22, 7, 12, 17, 22,
   5,  9, 14, 20, 5,  9, 14, 20, 5,  9, 14, 20, 5,  9, 14, 20,
   4, 11, 16, 23, 4, 11, 16, 23, 4, 11, 16, 23, 4, 11, 16, 23,
   6, 10, 15, 21, 6, 10, 15, 21, 6, 10, 15, 21, 6, 10, 15, 21]

/-- One MD5 round on the state `(a, b, c, d)` for round index `i`, with `m`
the sixteen 32-bit message words of the current block. -/
def md5Round (m : List Nat) (st : Nat × Nat × Nat × Nat) (i : Nat) : Nat × Nat × Nat × Nat :=
  let (a, b, c, d) := st
  let fg : Nat × Nat :=
    if i < 16 then ((b &&& c) ||| (not32 b &&& d), i)
    else if i < 32 then ((d &&& b) ||| (not32 d &&& c), (5 * i + 1) % 16)
    else if i < 48 then (b ^^^ c ^^^ d, (3 * i + 5) % 16)
    else (c ^^^ (b ||| not32 d), (7 * i) % 16)
  let f := add32 (add32 (add32 fg.1 a) (md5K.getD i 0)) (m.getD fg.2 0)
  (d, add32 b (rotl32 f (md5S.getD i 0)), b, c)

/-- Split a 64-byte block into sixteen little-endian 32-bit words. -/
def md5Words (block : List Nat) : List Nat :=
  (List.range 16).map fun j =>
    block.getD (4 * j) 0 + 256 * block.getD (4 * j + 1) 0 +
      65536 * block.getD (4 * j + 2) 0 + 16777216 * block.getD (4 * j + 3) 0

/-- Process one 64-byte block: run the 64 rounds, then add the round output
to the incoming state. -/
def md5Compress (st : Nat × Nat × Nat × Nat) (block : List Nat) : Nat × Nat × Nat × Nat :=
  let m := md5Words block
  let r := (List.range 64).foldl (md5Round m) st
  (add32 st.1 r.1, add32 st.2.1 r.2.1, add32 st.2.2.1 r.2.2.1, add32 st.2.2.2 r.2.2.2)

/-- Little-endian byte encoding of `n`, `k` bytes long. -/
def leBytes : Nat → Nat → List Nat
  | 0, _ => []
  | k + 1, n => n % 256 :: leBytes k (n / 256)

/-- MD5 padding: a `0x80` byte, zero bytes up to 56 mod 64, then the 8-byte
little-endian bit length. -/
def md5Pad (msg : List Nat) : List Nat :=
  let len := msg.length
  let z := (120 - ((len + 1) % 64)) % 64
  msg ++ [128] ++ List.replicate z 0 ++ leBytes 8 ((8 * len) % 2 ^ 64)

def md5Blocks : Nat → Nat × Nat × Nat × Nat → List Nat → Nat × Nat × Nat × Nat
  | 0, st, _ => st
  | fuel + 1, st, bytes => md5Blocks fuel (md5Compress st (bytes.take 64)) (bytes.drop 64)

/-- The 16-byte MD5 digest of a byte string. -/
def md5Digest (msg : List Nat) : List Nat :=
  let padded := md5Pad msg
  let st := md5Blocks (padded.length / 64) (0x67452301, 0xefcdab89, 0x98badcfe, 0x10325476) padded
  leBytes 4 st.1 ++ leBytes 4 st.2.1 ++ leBytes 4 st.2.2.1 ++ leBytes 4 st.2.2.2

/-- UTF-8 encoding of one character (Python `str.encode()`), as byte values. -/
def utf8Char (c : Char) : List Nat :=
  let n := c.toNat
  if n < 128 then [n]
  else if n < 2048 then [192 ||| (n >>> 6), 128 ||| (n &&& 63)]
  else if n < 65536 then
    [224 ||| (n >>> 12), 128 ||| ((n >>> 6) &&& 63), 128 ||| (n &&& 63)]
  else
    [240 ||| (n >>> 18), 128 ||| ((n >>> 12) &&& 63), 128 ||| ((n >>> 6) &&& 63), 128 ||| (n &&& 63)]

def utf8Bytes (s : String) : List Nat := s.data.flatMap utf8Char

/-- `int.from_bytes(hashlib.md5(s.encode()).digest()[:8], byteorder='big')`:
the first 8 digest bytes of the MD5 of `s`, read as a big-endian unsigned
64-bit integer. -/
def md5First8 (s : String) : Nat :=
  ((md5Digest (utf8Bytes s)).take 8).foldl (fun acc b => acc * 256 + b) 0

/-! ## Python `round(video_id / 1000)`, modelled exactly

`video_id / 1000` is CPython true division of two ints, which returns the
IEEE-754 binary64 double nearest to the exact quotient (ties to even
mantissa); `round` then rounds that double to the nearest integer, again
ties to even.  Everything is expressed in integer arithmetic: `rneDiv a b`
is round-to-nearest-ties-even of the exact fraction `a / b`. -/

/-- Round `a / b` (with `b > 0`) to the nearest integer, ties to even. -/
def rneDiv (a b : Nat) : Nat :=
  let n := a / b
  let r := a % b
  if 2 * r < b then n
  else if b < 2 * r then n + 1
  else if n % 2 = 0 then n else n + 1

/-- Floor of log base 2, fuel-driven so that it reduces in the kernel;
`floorLog2 n = log2fuel n n` is exact for every `n ≥ 1`. -/
def log2fuel : Nat → Nat → Nat
  | 0, _ => 0
  | fuel + 1, n => if n < 2 then 0 else log2fuel fuel (n / 2) + 1

def floorLog2 (n : Nat) : Nat := log2fuel n n

/-- For `1 ≤ v < 1000` the binade exponent of `v / 1000` is `-(negExp v)`,
where `negExp v` is the least `k ≥ 1` with `1000 ≤ v * 2 ^ k` (`k ≤ 10`
always suffices). -/
def negExpAux : Nat → Nat → Nat → Nat
  | _, 0, k => k
  | v, fuel + 1, k => if 1000 ≤ v * 2 ^ k then k else negExpAux v fuel (k + 1)

def negExp (v : Nat) : Nat := negExpAux v 10 1

/-- The IEEE-754 binade exponent `e` of `v / 1000` for `v ≥ 1`:
`2 ^ e ≤ v / 1000 < 2 ^ (e + 1)`. -/
def binadeExp (v : Nat) : Int :=
  if 1000 ≤ v then (floorLog2 (v / 1000) : Int) else -(negExp v : Int)

/-- Python `round(v / 1000)` for a nonnegative int `v`.  The double produced
by the division is `m * 2 ^ (e - 52)` where `m` is the quotient's mantissa,
correctly rounded ties-to-even; `round` then applies ties-to-even again at
integer precision. -/
def pyRoundDiv1000 (v : Nat) : Nat :=
  if v = 0 then 0
  else
    let e : Int := binadeExp v
    if e ≤ 52 then
      let d := (52 - e).toNat
      let m := rneDiv (v * 2 ^ d) 1000
      rneDiv m (2 ^ d)
    else
      let d := (e - 52).toNat
      let m := rneDiv v (1000 * 2 ^ d)
      m * 2 ^ d

/-! ## Identity deriver

`VideoManager._generate_video_id` (src/services/video_manager.py:253-279)
and the duplicate pipeline inside `app.get_video_id`
(src/app.py:192-220): `hash_input = f"{name}_{size}"`, MD5, first 8 digest
bytes big-endian, then `round(video_id / 1000) * 1000`. -/

/-- The identity computed from a filename and an observed byte size. -/
def generate_video_id (filename : String) (size : Nat) : Nat :=
  pyRoundDiv1000 (md5First8 (filename ++ "_" ++ Nat.repr size)) * 1000

/-- Modelled from the spec (section 4.1): the same digest pipeline, but with
the final step, as the claim words it, "rounded to the nearest multiple of
1000 with ties rounded half-up". -/
def specDeriveId (filename : String) (size : Nat) : Nat :=
  ((md5First8 (filename ++ "_" ++ Nat.repr size) + 500) / 1000) * 1000

/-! ## Data model (src/database/models.py) -/

inductive VideoStatus
  | NEW
  | PROCESSED
  | ARCHIVED
deriving DecidableEq, Repr

inductive K2SStatus
  | PENDING
  | QUEUED
  | UPLOADING
  | UPLOADED
  | FAILED
  | EXPIRED
deriving DecidableEq, Repr

/-- `TelegramStatus` as declared at src/database/models.py:22-25.  Its only
members are PENDING, UPLOADED and FAILED; there is no QUEUED member. -/
inductive TelegramStatus
  | PENDING
  | UPLOADED
  | FAILED
deriving DecidableEq, Repr

/-- Python attribute lookup on the `TelegramStatus` enum class: `none` means
the access raises `AttributeError`.  `ClipManager.upload_clip` accesses
`TelegramStatus.QUEUED`, which is not among the declared members. -/
def telegramStatusMember : String → Option TelegramStatus
  | "PENDING" => some .PENDING
  | "UPLOADED" => some .UPLOADED
  | "FAILED" => some .FAILED
  | _ => none

structure Video where
  id : Int
  filename : String
  path : String
  status : VideoStatus
  k2s_status : K2SStatus
  k2s_link : Option String
  created_at : Nat
deriving DecidableEq, Repr

structure Clip where
  id : Int
  video_id : Int
  filename : String
  path : String
  start_time : ℚ
  end_time : ℚ
  k2s_link : Option String
  telegram_status : TelegramStatus
  telegram_link : Option String
  created_at : Nat
deriving DecidableEq, Repr

/-! ## Catalog store (src/database/db_manager.py)

The `videos` and `clips` tables are modelled as lists of rows; queries with
`.first()` return the first matching row, and ORM mutation plus commit is
modelled by rewriting that row in place. -/

/-- `DatabaseManager.get_video_by_id`: `filter(Video.id == video_id).first()`. -/
def get_video_by_id : List Video → Int → Option Video
  | [], _ => none
  | v :: rest, i => if v.id = i then some v else get_video_by_id rest i

/-- Rewrite the first row matching `i` (the row `.first()` returned). -/
def updateFirstVideo : List Video → Int → (Video → Video) → List Video
  | [], _, _ => []
  | v :: rest, i, f => if v.id = i then f v :: rest else v :: updateFirstVideo rest i f

/-- Python truthiness of the optional `k2s_link` argument
(`if k2s_link: video.k2s_link = k2s_link`): `None` and the empty string are
falsy. -/
def linkTruthy : Option String → Bool
  | none => false
  | some s => s ≠ ""

/-- `DatabaseManager.update_video_k2s_status` (src/database/db_manager.py:40-53):
look the video up; if absent do nothing; otherwise set `k2s_status`, and set
`k2s_link` only when a truthy link argument was supplied. -/
def update_video_k2s_status (db : List Video) (video_id : Int) (status : K2SStatus)
    (k2s_link : Option String) : List Video :=
  match get_video_by_id db video_id with
  | none => db
  | some _ =>
      updateFirstVideo db video_id fun v =>
        { v with
          k2s_status := status
          k2s_link := if linkTruthy k2s_link then k2s_link else v.k2s_link }

/-- `DatabaseManager.add_video`: insert a new row with status NEW and
K2S status PENDING (`created_at` is a server-side default, fixed to 0 here). -/
def add_video (db : List Video) (id : Int) (filename path : String) : List Video × Video :=
  let v : Video :=
    { id := id, filename := filename, path := path, status := .NEW,
      k2s_status := .PENDING, k2s_link := none, created_at := 0 }
  (db ++ [v], v)

/-- The Python value passed as the `k2s_status` argument of
`DatabaseManager.get_videos_by_status`.  The signature declares a single
`K2SStatus`, but `upload_all_videos` passes a Python list of two statuses. -/
inductive StatusArg
  | enum (s : K2SStatus)
  | listOf (l : List K2SStatus)

/-- `DatabaseManager.get_videos_by_status` (src/database/db_manager.py:36-38):
the query compares the `k2s_status` column with its argument for equality.
Called with the single status the signature declares, it returns the rows
whose status equals it.  Called with a Python list, executing the query
raises: SQLAlchemy's Enum bind processor looks the parameter up in its
member table, and the dict lookup on the unhashable list raises TypeError
at query time, which propagates to the caller. -/
def get_videos_by_status (db : List Video) : StatusArg → Except String (List Video)
  | .enum s => .ok (db.filter fun v => v.k2s_status = s)
  | .listOf _ => .error "TypeError: unhashable type: \x27list\x27"

/-- `DatabaseManager.get_clip_by_id`. -/
def get_clip_by_id : List Clip → Int → Option Clip
  | [], _ => none
  | c :: rest, i => if c.id = i then some c else get_clip_by_id rest i

def updateFirstClip : List Clip → Int → (Clip → Clip) → List Clip
  | [], _, _ => []
  | c :: rest, i, f => if c.id = i then f c :: rest else c :: updateFirstClip rest i f

/-- `DatabaseManager.update_clip_telegram_status`
(src/database/db_manager.py:100-113): mirror image of the video update. -/
def update_clip_telegram_status (db : List Clip) (clip_id : Int) (status : TelegramStatus)
    (telegram_link : Option String) : List Clip :=
  match get_clip_by_id db clip_id with
  | none => db
  | some _ =>
      updateFirstClip db clip_id fun c =>
        { c with
          telegram_status := status
          telegram_link := if linkTruthy telegram_link then telegram_link else c.telegram_link }

/-- `DatabaseManager.get_clips_by_status`. -/
def get_clips_by_status (db : List Clip) (status : TelegramStatus) : List Clip :=
  db.filter fun c => c.telegram_status = status

/-! ## Upload orchestrator for videos (src/services/video_manager.py) -/

/-- The dict returned by `VideoManager.upload_video`: either the success
payload or `{"status": "error", "error": msg}`. -/
inductive UploadResult
  | ok (id : Int) (filename path k2s_link : String)
  | err (msg : String)
deriving DecidableEq, Repr

/-- Result of one `upload_video` call.  `uploaderCalls` records the paths
passed to the external `k2s.upload_file`, in order — the observable used to
state the single-invocation properties (the spec's mock uploader that
asserts invocation counts). -/
structure UploadOutcome where
  db : List Video
  result : UploadResult
  uploaderCalls : List String
deriving Repr

/-- `VideoManager.upload_video` (src/services/video_manager.py:38-87).
The lookup failure raises a ValueError which the outer handler turns into an
error dict; otherwise the status is set to QUEUED, the uploader is called,
and its success or failure is written back (FAILED is written inside the
inner handler before the exception is re-raised, so it happens even though
the call threw; the outer handler then returns the error dict). -/
def upload_video (db : List Video) (upload_file : String → Except String String)
    (video_id : Int) : UploadOutcome :=
  match get_video_by_id db video_id with
  | none =>
      { db := db
        result := .err ("Video with ID " ++ toString video_id ++ " not found")
        uploaderCalls := [] }
  | some video =>
      let db1 := update_video_k2s_status db video_id .QUEUED none
      match upload_file video.path with
      | .ok k2s_link =>
          { db := update_video_k2s_status db1 video_id .UPLOADED (some k2s_link)
            result := .ok video.id video.filename video.path k2s_link
            uploaderCalls := [video.path] }
      | .error e =>
          { db := update_video_k2s_status db1 video_id .FAILED none
            result := .err e
            uploaderCalls := [video.path] }

/-- The dict returned by `VideoManager.upload_all_videos`. -/
structure AllUploadsSummary where
  uploaded_count : Nat
  error_count : Nat
  uploaded_videos : List UploadResult
  errors : List (Int × String × String)
deriving Repr

/-- State threaded through the `upload_all_videos` loop. -/
structure AllUploadsState where
  db : List Video
  uploaded_videos : List UploadResult
  errors : List (Int × String × String)
  uploaderCalls : List String

/-- The body of the `for video in unuploaded_videos` loop.  `upload_video`
returns its error dict instead of raising, so the `except` branch that would
append to `errors` can never run; error results are silently dropped. -/
def uploadAllStep (upload_file : String → Except String String)
    (st : AllUploadsState) (video : Video) : AllUploadsState :=
  let out := upload_video st.db upload_file video.id
  match out.result with
  | .ok i f p l =>
      { db := out.db
        uploaded_videos := st.uploaded_videos ++ [.ok i f p l]
        errors := st.errors
        uploaderCalls := st.uploaderCalls ++ out.uploaderCalls }
  | .err _ =>
      { db := out.db
        uploaded_videos := st.uploaded_videos
        errors := st.errors
        uploaderCalls := st.uploaderCalls ++ out.uploaderCalls }

/-- `VideoManager.upload_all_videos` (src/services/video_manager.py:89-125):
select `get_videos_by_status([K2SStatus.PENDING, K2SStatus.FAILED])` once,
loop `upload_video` over the selection, and return counts plus the
collected lists.  The selection raises (see `get_videos_by_status`), and
the method's own handler is `except ... : log; raise`, so the exception is
re-raised to the caller: an `Except.error` summary models the propagated
exception. -/
def upload_all_videos (db : List Video) (upload_file : String → Except String String) :
    List Video × Except String AllUploadsSummary × List String :=
  match get_videos_by_status db (.listOf [.PENDING, .FAILED]) with
  | .error e => (db, .error e, [])
  | .ok unuploaded =>
      let final := unuploaded.foldl (uploadAllStep upload_file)
        { db := db, uploaded_videos := [], errors := [], uploaderCalls := [] }
      (final.db,
       .ok { uploaded_count := final.uploaded_videos.length
             error_count := final.errors.length
             uploaded_videos := final.uploaded_videos
             errors := final.errors },
       final.uploaderCalls)

/-! ## Reconciler (src/services/video_manager.py:127-199 and app.py) -/

/-- A directory entry as the reconciler observes it: the glob result name and
path, and the result of `stat` (`none`: the file cannot be stat'ed, so
reading its byte size raises an OSError). -/
structure FsFile where
  name : String
  path : String
  size : Option Nat
deriving DecidableEq, Repr

/-- `VideoManager._generate_video_id` applied to a file: a stat failure is
re-raised to the caller; otherwise the id is the pure function of
(filename, size). -/
def videoIdOfFile (f : FsFile) : Except String Int :=
  match f.size with
  | none => .error ("stat failed: " ++ f.path)
  | some sz => .ok (generate_video_id f.name sz)

/-- `app.get_video_id` (src/app.py:192-220): the same pipeline, but the
enclosing try/except catches every exception and returns the fallback id 0
instead of propagating it. -/
def app_get_video_id (f : FsFile) : Except String Int :=
  match videoIdOfFile f with
  | .ok i => .ok i
  | .error _ => .ok 0

/-- `VideoManager.track_video` (src/services/video_manager.py:127-156):
derive the id, return `none` when a row with that id already exists,
otherwise insert a new row; errors are re-raised. -/
def track_video (db : List Video) (f : FsFile) : Except String (List Video × Option Video) :=
  match videoIdOfFile f with
  | .error e => .error e
  | .ok video_id =>
      match get_video_by_id db video_id with
      | some _ => .ok (db, none)
      | none =>
          let (db1, v) := add_video db video_id f.name f.path
          .ok (db1, some v)

/-- The dict returned by `VideoManager.track_all_videos`. -/
structure TrackSummary where
  added : List (Int × String × String)
  errors : List (String × String)
deriving DecidableEq, Repr

/-- `VideoManager.track_all_videos` (src/services/video_manager.py:158-199):
loop `track_video` over the directory listing (`videos_dir.glob("*.mp4")`),
collecting added rows and per-file errors; one file's failure never aborts
the scan of the rest. -/
def track_all_videos (db : List Video) : List FsFile → List Video × TrackSummary
  | [] => (db, { added := [], errors := [] })
  | f :: rest =>
      match track_video db f with
      | .error e =>
          let (db1, s) := track_all_videos db rest
          (db1, { s with errors := (f.name, e) :: s.errors })
      | .ok (db1, none) => track_all_videos db1 rest
      | .ok (db1, some v) =>
          let (db2, s) := track_all_videos db1 rest
          (db2, { s with added := (v.id, v.filename, v.path) :: s.added })

/-! ## Upload orchestrator for clips (src/services/clip_manager.py:81-133) -/

/-- The parsed JSON of a Telegram `send_video` response, as the code reads
it: the `ok` flag and `result.message_id`. -/
structure TgResponse where
  ok : Bool
  message_id : Nat

/-- The configured Telegram bot: a channel id and the `send_video` call,
which returns a response or a falsy value. -/
structure TgBot where
  channel_id : String
  send_video : String → String → Option TgResponse

/-- The dict returned by `ClipManager.upload_clip` on the non-raising paths. -/
inductive ClipUploadResult
  | success (telegram_link : String)
  | skipped (message : String)
deriving DecidableEq, Repr

/-- Result of one `upload_clip` call; `sendCalls` records the paths passed to
`telegram.send_video`.  An `Except.error` models an exception propagating to
the caller (`upload_clip` re-raises from its handler). -/
structure ClipUploadOutcome where
  clips : List Clip
  result : Except String ClipUploadResult
  sendCalls : List String

/-- The try-body of `ClipManager.upload_clip`.  After the clip lookup it
evaluates `TelegramStatus.QUEUED`; the enum has no such member
(src/database/models.py:22-25), so that attribute access raises
AttributeError before the status update or the Telegram call can happen.
The remaining lines are modelled under `some queued` for fidelity but are
unreachable. -/
def uploadClipBody (clips : List Clip) (videos : List Video) (telegram : Option TgBot)
    (clip_id : Int) : List Clip × Except String ClipUploadResult × List String :=
  match get_clip_by_id clips clip_id with
  | none => (clips, .error ("Clip with ID " ++ toString clip_id ++ " not found"), [])
  | some clip =>
      match telegramStatusMember "QUEUED" with
      | none =>
          (clips, .error "AttributeError: QUEUED is not a member of TelegramStatus", [])
      | some queued =>
          let clips1 := update_clip_telegram_status clips clip_id queued none
          let k2s_link : String :=
            match get_video_by_id videos clip.video_id with
            | some v => match v.k2s_link with | some l => l | none => "None"
            | none => "No K2S link available"
          let caption := "🎬 " ++ k2s_link
          match telegram with
          | some bot =>
              match bot.send_video clip.path caption with
              | some resp =>
                  if resp.ok then
                    let telegram_link := "https://t.me/c/" ++
                      (bot.channel_id.replace "-100" "") ++ "/" ++ toString resp.message_id
                    (update_clip_telegram_status clips1 clip_id .UPLOADED (some telegram_link),
                     .ok (.success telegram_link), [clip.path])
                  else (clips1, .error "Failed to upload to Telegram", [clip.path])
              | none => (clips1, .error "Failed to upload to Telegram", [clip.path])
          | none => (clips1, .ok (.skipped "No Telegram bot configured"), [])

/-- `ClipManager.upload_clip` (src/services/clip_manager.py:81-133): run the
try-body; on any exception the handler sets the clip's Telegram status to
FAILED and re-raises. -/
def upload_clip (clips : List Clip) (videos : List Video) (telegram : Option TgBot)
    (clip_id : Int) : ClipUploadOutcome :=
  match uploadClipBody clips videos telegram clip_id with
  | (clips1, .error e, calls) =>
      { clips := update_clip_telegram_status clips1 clip_id .FAILED none
        result := .error e
        sendCalls := calls }
  | (clips1, .ok r, calls) => { clips := clips1, result := .ok r, sendCalls := calls }

/-! ## Time code parser (src/services/clip_creator.py:18-58)

`ClipCreator._convert_time_to_seconds` takes an arbitrary Python value;
`PyVal.nonStr` carries the type name and the rendering that Python f-strings
would produce for a non-string argument.  `pyInt` models `int(str)`:
optional surrounding ASCII whitespace, an optional sign, then decimal digits
possibly separated by single underscores.  (Python also accepts non-ASCII
decimal digits; the claims do not depend on those.) -/

inductive PyVal
  | str (s : String)
  | nonStr (typeName : String) (shown : String)

def pyShow : PyVal → String
  | .str s => s
  | .nonStr _ shown => shown

def isPyWs (c : Char) : Bool :=
  c = ' ' || c = '\t' || c = '\n' || c = '\x0b' || c = '\x0c' || c = '\r'

def trimWs (cs : List Char) : List Char :=
  ((cs.dropWhile isPyWs).reverse.dropWhile isPyWs).reverse

def digitVal (c : Char) : Nat := c.toNat - 48

/-- Digits after the first one: a digit, or an underscore followed by a
digit; anything else (including a trailing or doubled underscore) fails. -/
def pyDigitsRest : List Char → Nat → Option Nat
  | [], acc => some acc
  | '_' :: c :: rest, acc =>
      if c.isDigit then pyDigitsRest rest (acc * 10 + digitVal c) else none
  | ['_'], _ => none
  | c :: rest, acc =>
      if c.isDigit then pyDigitsRest rest (acc * 10 + digitVal c) else none

def pyDigits : List Char → Option Nat
  | [] => none
  | c :: rest => if c.isDigit then pyDigitsRest rest (digitVal c) else none

/-- Python `int(s)`: `none` models a ValueError. -/
def pyInt (s : String) : Option Int :=
  match trimWs s.data with
  | '+' :: rest => (pyDigits rest).map fun n => (n : Int)
  | '-' :: rest => (pyDigits rest).map fun n => -(n : Int)
  | cs => (pyDigits cs).map fun n => (n : Int)

/-- Python `str.split(sep)` for a one-character separator. -/
def splitChar (sep : Char) : List Char → List (List Char)
  | [] => [[]]
  | c :: rest =>
      if c = sep then [] :: splitChar sep rest
      else
        match splitChar sep rest with
        | g :: gs => (c :: g) :: gs
        | [] => [[c]]

def pySplit (sep : Char) (s : String) : List String :=
  (splitChar sep s.data).map List.asString

/-- `ms_component.ljust(3, '0')[:3]`: right-pad with zeros to three
characters, then keep the first three. -/
def pyLjust3Take3 (s : String) : String :=
  ((s.data ++ List.replicate (3 - s.data.length) '0').take 3).asString

/-- The message of the ValueError that `_convert_time_to_seconds` re-raises
for every failure: it echoes the offending value and the expected pattern. -/
def timeFormatErrorMsg (shown : String) : String :=
  "Invalid time format \x27" ++ shown ++
    "\x27. Use HH:MM:SS[.mmm] (e.g., 00:01:30.500 for 1 minute 30.5 seconds)"

/-- The try-body of `ClipCreator._convert_time_to_seconds`
(src/services/clip_creator.py:18-58): it raises ValueError for a non-string
input, a wrong `:`-segment count, non-numeric segments, or out-of-range
values.  The success value `hours*3600 + minutes*60 + seconds + ms/1000` is
returned as the exact rational the Python float denotes a rounding of. -/
def convertTimeBody : PyVal → Except String ℚ
  | .nonStr typeName _ => .error ("Time must be a string, got " ++ typeName)
  | .str s =>
      let time_parts := pySplit '.' s
      let time_component := time_parts.headD ""
      let ms_component := if time_parts.length > 1 then time_parts.getD 1 "" else "0"
      let hms := pySplit ':' time_component
      if hms.length ≠ 3 then .error "Time must be in HH:MM:SS[.mmm] format"
      else
        match pyInt (hms.getD 0 ""), pyInt (hms.getD 1 ""), pyInt (hms.getD 2 ""),
            pyInt (pyLjust3Take3 ms_component) with
        | some hours, some minutes, some seconds, some ms =>
            if 0 ≤ hours ∧ hours ≤ 23 ∧ 0 ≤ minutes ∧ minutes ≤ 59 ∧
                0 ≤ seconds ∧ seconds ≤ 59 ∧ 0 ≤ ms ∧ ms ≤ 999 then
              .ok ((hours : ℚ) * 3600 + (minutes : ℚ) * 60 + (seconds : ℚ) + (ms : ℚ) / 1000)
            else
              .error "Invalid time values. Hours: 0-23, Minutes: 0-59, Seconds: 0-59, Milliseconds: 0-999"
        | _, _, _, _ => .error "Hours, minutes, seconds, and milliseconds must be numbers"

/-- `ClipCreator._convert_time_to_seconds`: run the try-body; the
`except ValueError` handler re-raises every failure with the single
user-facing message built from the offending value. -/
def convert_time_to_seconds (time_str : PyVal) : Except String ℚ :=
  match convertTimeBody time_str with
  | .ok x => .ok x
  | .error _ => .error (timeFormatErrorMsg (pyShow time_str))

/-- The `:`-separated segments of the part before the first dot — the
claim's hour, minute and second segments. -/
def timecodeSegments (s : String) : List String :=
  pySplit ':' ((pySplit '.' s).headD "")

/-- The milliseconds segment: the part after the first dot, `"0"` if absent. -/
def timecodeMsSegment (s : String) : String :=
  let tp := pySplit '.' s
  if tp.length > 1 then tp.getD 1 "" else "0"

/-- The claim's failure conditions for a string input, stated on the
embedding's observables: wrong segment count, some non-numeric segment
(including the padded-and-truncated milliseconds), or some segment out of
range (hours `[0,23]`, minutes `[0,59]`, seconds `[0,59]`, milliseconds
`[0,999]`). -/
def timecodeBad (s : String) : Prop :=
  (timecodeSegments s).length ≠ 3 ∨
  pyInt ((timecodeSegments s).getD 0 "") = none ∨
  pyInt ((timecodeSegments s).getD 1 "") = none ∨
  pyInt ((timecodeSegments s).getD 2 "") = none ∨
  pyInt (pyLjust3Take3 (timecodeMsSegment s)) = none ∨
  (∃ hrs mins secs ms : Int,
    pyInt ((timecodeSegments s).getD 0 "") = some hrs ∧
    pyInt ((timecodeSegments s).getD 1 "") = some mins ∧
    pyInt ((timecodeSegments s).getD 2 "") = some secs ∧
    pyInt (pyLjust3Take3 (timecodeMsSegment s)) = some ms ∧
    ¬(0 ≤ hrs ∧ hrs ≤ 23 ∧ 0 ≤ mins ∧ mins ≤ 59 ∧ 0 ≤ secs ∧ secs ≤ 59 ∧
        0 ≤ ms ∧ ms ≤ 999))

/-! ## Clip output filename avoidance loop (src/services/clip_creator.py:101-118) -/

/-- The `k`-th candidate output name: `base_clip` first, then `base_clip_1`,
`base_clip_2`, and so on. -/
def candidateName (base : String) : Nat → String
  | 0 => base ++ "_clip"
  | k + 1 => base ++ "_clip_" ++ Nat.repr (k + 1)

/-- The while loop: starting from candidate `k`, keep advancing while
`{output_name}.mp4` exists in the clips directory.  `existing` is the set of
filenames present; the fuel `existing.length + 1` is enough because the
candidates are pairwise distinct. -/
def findNameAux (existing : List String) (base : String) : Nat → Nat → String
  | 0, k => candidateName base k
  | fuel + 1, k =>
      if candidateName base k ++ ".mp4" ∈ existing then findNameAux existing base fuel (k + 1)
      else candidateName base k

/-- The unique output name `ClipCreator.create_clip` settles on (without the
`.mp4` suffix it then appends). -/
def find_unique_output_name (existing : List String) (base : String) : String :=
  findNameAux existing base (existing.length + 1) 0

/-- Decimal value of a digit string, used to show that `Nat.repr` (the
rendering of the loop counter in the candidate filenames) is injective. -/
def strVal (cs : List Char) : Nat := cs.foldl (fun a c => 10 * a + digitVal c) 0

/-! ## Concrete sample data used by witnesses and counterexamples -/

def c2SampleClip : Clip :=
  { id := 1, video_id := 1000, filename := "a_clip.mp4",
    path := "storage/clips/a_clip.mp4", start_time := 10, end_time := 20,
    k2s_link := none, telegram_status := .PENDING, telegram_link := none, created_at := 0 }

/-- A Telegram bot whose `send_video` always succeeds, so that any failure of
`upload_clip` cannot be blamed on the external call. -/
def c2SampleBot : TgBot :=
  { channel_id := "-100777", send_video := fun _ _ => some { ok := true, message_id := 42 } }

def c4SampleVideo : Video :=
  { id := 5000, filename := "pending.mp4", path := "storage/videos/pending.mp4",
    status := .NEW, k2s_status := .PENDING, k2s_link := none, created_at := 0 }

def c7SampleVideo : Video :=
  { id := 1000, filename := "done.mp4", path := "storage/videos/done.mp4",
    status := .PROCESSED, k2s_status := .UPLOADED, k2s_link := some "k2s-link-old",
    created_at := 0 }

def c5SampleFile : FsFile :=
  { name := "demo.mp4", path := "storage/videos/demo.mp4", size := none }

def c10SampleVideo : Video :=
  { id := 8000, filename := "kept.mp4", path := "storage/videos/kept.mp4",
    status := .NEW, k2s_status := .PENDING, k2s_link := none, created_at := 0 }

def c10SampleClip : Clip :=
  { id := 9, video_id := 8000, filename := "kept_clip.mp4",
    path := "storage/clips/kept_clip.mp4", start_time := 1, end_time := 2,
    k2s_link := none, telegram_status := .PENDING, telegram_link := none, created_at := 0 }

/-! # Theorems -/

/-! ## Helper lemmas about the store -/

theorem updateFirstVideo_forall₂ {R : Video → Video → Prop} (db : List Video) (i : Int)
    (f : Video → Video) (hrefl : ∀ v, R v v) (hf : ∀ v, R v (f v)) :
    List.Forall₂ R db (updateFirstVideo db i f) := by
  induction db with
  | nil => exact .nil
  | cons v rest ih =>
      by_cases h : v.id = i
      · simp only [updateFirstVideo, if_pos h]
        exact .cons (hf v) (List.forall₂_same.2 fun x _ => hrefl x)
      · simp only [updateFirstVideo, if_neg h]
        exact .cons (hrefl v) ih

/-! ## C10 -/

/-- Claim C10: calling the store's status-update operations (set video upload
status, set clip distribution status) with an id that matches no stored row
completes normally — no error, no failure indication — and leaves the store
unchanged. -/
theorem c10_update_missing_id_noop (videos : List Video) (clips : List Clip)
    (video_id clip_id : Int) (vs : K2SStatus) (cs : TelegramStatus)
    (vlink clink : Option String)
    (hv : get_video_by_id videos video_id = none)
    (hc : get_clip_by_id clips clip_id = none) :
    update_video_k2s_status videos video_id vs vlink = videos ∧
      update_clip_telegram_status clips clip_id cs clink = clips := by
  constructor
  · unfold update_video_k2s_status
    rw [hv]
  · unfold update_clip_telegram_status
    rw [hc]

/-- Witness for C10: a store holding one video (id 8000) and one clip (id 9);
updating video id 7 and clip id 7 finds no row and changes nothing. -/
theorem c10_update_missing_id_noop_witness :
    get_video_by_id [c10SampleVideo] 7 = none ∧
    get_clip_by_id [c10SampleClip] 7 = none ∧
    update_video_k2s_status [c10SampleVideo] 7 .UPLOADED (some "late-link") = [c10SampleVideo] ∧
    update_clip_telegram_status [c10SampleClip] 7 .FAILED none = [c10SampleClip] := by
  have h := c10_update_missing_id_noop [c10SampleVideo] [c10SampleClip] 7 7
    .UPLOADED .FAILED (some "late-link") none (by decide) (by decide)
  exact ⟨by decide, by decide, h.1, h.2⟩

/-! ## C8 -/

/-- Claim C8: a video upload-status transition that supplies no link (in
particular the FAILED transition) leaves the stored `k2s_link` unchanged on
every row, and modifies nothing else besides `k2s_status`: filename, path,
lifecycle status, creation timestamp and id are all preserved row by row.
Hence a link set by an earlier successful upload persists through a later
FAILED transition. -/
theorem c8_update_without_link_frame (db : List Video) (video_id : Int) (status : K2SStatus) :
    List.Forall₂
      (fun v w => w.k2s_link = v.k2s_link ∧ w.filename = v.filename ∧ w.path = v.path ∧
        w.status = v.status ∧ w.created_at = v.created_at ∧ w.id = v.id)
      db (update_video_k2s_status db video_id status none) := by
  unfold update_video_k2s_status
  cases h : get_video_by_id db video_id with
  | none => exact List.forall₂_same.2 fun x _ => ⟨rfl, rfl, rfl, rfl, rfl, rfl⟩
  | some v =>
      refine updateFirstVideo_forall₂ db video_id _ (fun w => ⟨rfl, rfl, rfl, rfl, rfl, rfl⟩) ?_
      intro w
      refine ⟨?_, rfl, rfl, rfl, rfl, rfl⟩
      simp [linkTruthy]

/-! ## C7 -/

/-- Counterexample to claim C7 as stated: the claim says that for an asset
whose status is neither PENDING nor FAILED, `upload_one` does not invoke the
external uploader.  `c7SampleVideo` has status UPLOADED, yet `upload_video`
passes its path to the uploader. -/
theorem c7_upload_video_guard_counterexample :
    (upload_video [c7SampleVideo] (fun _ => Except.ok "k2s-link-new") 1000).uploaderCalls
      = ["storage/videos/done.mp4"] := by
  decide

/-- Claim C7 amended: `upload_video` has no status precondition at all.  For
every store, uploader and id, if the id resolves to a row — whatever its
current upload status, QUEUED, UPLOADING or UPLOADED included — the external
uploader is invoked exactly once, on that row's path; the uploader is
skipped only when the id matches no row. -/
theorem c7_upload_video_no_status_guard (db : List Video)
    (upload_file : String → Except String String) (video_id : Int) :
    (∀ v, get_video_by_id db video_id = some v →
      (upload_video db upload_file video_id).uploaderCalls = [v.path]) ∧
    (get_video_by_id db video_id = none →
      (upload_video db upload_file video_id).uploaderCalls = []) := by
  constructor
  · intro v hv
    unfold upload_video
    rw [hv]
    dsimp only
    cases upload_file v.path <;> rfl
  · intro h
    unfold upload_video
    rw [h]

/-- Witness for C7: instantiated on a one-row store whose video is UPLOADED
(id 1000) and on the id 99 absent from it. -/
theorem c7_upload_video_no_status_guard_witness :
    (upload_video [c7SampleVideo] (fun _ => Except.ok "k2s-link-new") 1000).uploaderCalls
        = [c7SampleVideo.path] ∧
    (upload_video [c7SampleVideo] (fun _ => Except.ok "k2s-link-new") 99).uploaderCalls = [] := by
  constructor
  · exact (c7_upload_video_no_status_guard [c7SampleVideo] (fun _ => Except.ok "k2s-link-new")
      1000).1 c7SampleVideo (by decide)
  · exact (c7_upload_video_no_status_guard [c7SampleVideo] (fun _ => Except.ok "k2s-link-new")
      99).2 (by decide)

/-! ## C5 -/

/-- Counterexample to claim C5 as stated: the claim says identity derivation
fails with a propagated FileAccess error whenever the file cannot be
stat'ed, for both cited implementations.  For `app.get_video_id`
(src/app.py:192-220) this is false: on a file whose stat fails it completes
successfully with the silent fallback id 0. -/
theorem c5_app_fallback_counterexample : app_get_video_id c5SampleFile = .ok 0 := by
  rfl

/-- Claim C5 amended: when the file cannot be stat'ed,
`VideoManager._generate_video_id` propagates the error to its caller and
never substitutes a fallback id, but `app.get_video_id` catches every
exception and silently returns the fallback id 0 instead of failing. -/
theorem c5_stat_failure (f : FsFile) (h : f.size = none) :
    videoIdOfFile f = .error ("stat failed: " ++ f.path) ∧ app_get_video_id f = .ok 0 := by
  unfold app_get_video_id videoIdOfFile
  rw [h]
  exact ⟨rfl, rfl⟩

/-- Witness for C5: the stat-failing file `demo.mp4`. -/
theorem c5_stat_failure_witness :
    videoIdOfFile c5SampleFile = .error ("stat failed: " ++ c5SampleFile.path) ∧
      app_get_video_id c5SampleFile = .ok 0 :=
  c5_stat_failure c5SampleFile rfl

/-! ## C2 -/

/-- Claim C2 evaluated at its failing input.  The claim says `upload_one`
transitions the asset to QUEUED and then calls the external uploader for
clips as well as videos.  For clips this is impossible: `TelegramStatus`
(src/database/models.py:22-25) has no QUEUED member, so the
`TelegramStatus.QUEUED` access in `ClipManager.upload_clip`
(src/services/clip_manager.py:98) raises AttributeError.  On a store holding
one PENDING clip (id 1) and a Telegram bot whose `send_video` always
succeeds, `upload_clip 1` never calls `send_video`, propagates the
AttributeError, and leaves the clip FAILED instead of QUEUED → UPLOADED. -/
theorem c2_upload_clip_queued_impossible :
    telegramStatusMember "QUEUED" = none ∧
    (upload_clip [c2SampleClip] [] (some c2SampleBot) 1).sendCalls = [] ∧
    (upload_clip [c2SampleClip] [] (some c2SampleBot) 1).result =
      .error "AttributeError: QUEUED is not a member of TelegramStatus" ∧
    (upload_clip [c2SampleClip] [] (some c2SampleBot) 1).clips.map Clip.telegram_status
      = [.FAILED] := by
  exact ⟨rfl, rfl, rfl, rfl⟩

/-! ## C4 -/

/-- Claim C4 evaluated at its failing input.  The claim says
`upload_all_pending` selects exactly the assets in {PENDING, FAILED},
uploads each, continues past failures, and returns a summary with counts
and per-item error records.  But `DatabaseManager.get_videos_by_status`
(src/database/db_manager.py:36-38) equality-compares the status column with
its argument, and `upload_all_videos` passes the Python list
`[PENDING, FAILED]`; executing that query raises (the Enum bind processor's
lookup on the unhashable list), and `upload_all_videos`'s own
`except ... raise` re-raises it.  On a store holding one PENDING video with
a working uploader, the sweep therefore propagates an exception instead of
returning any summary, never invokes the uploader, and leaves the video
PENDING and untouched.  (Even if selection worked, the per-item error
records could never be produced: `upload_video` returns its error dict
instead of raising, so the `except` branch that appends to `errors` is
unreachable.) -/
theorem c4_upload_all_raises :
    get_videos_by_status [c4SampleVideo] (.listOf [.PENDING, .FAILED]) =
      .error "TypeError: unhashable type: \x27list\x27" ∧
    (upload_all_videos [c4SampleVideo] (fun _ => Except.ok "k2s-link")).2.1 =
      .error "TypeError: unhashable type: \x27list\x27" ∧
    (upload_all_videos [c4SampleVideo] (fun _ => Except.ok "k2s-link")).2.2 = [] ∧
    (upload_all_videos [c4SampleVideo] (fun _ => Except.ok "k2s-link")).1 = [c4SampleVideo] := by
  exact ⟨rfl, rfl, rfl, rfl⟩

/-! ## C3 -/

theorem get_video_by_id_append (db : List Video) (w : Video) (i : Int) :
    get_video_by_id (db ++ [w]) i =
      ((get_video_by_id db i).orElse fun _ => get_video_by_id [w] i) := by
  induction db with
  | nil => rfl
  | cons v rest ih =>
      by_cases h : v.id = i
      · simp [get_video_by_id, h]
      · simpa [get_video_by_id, h] using ih

theorem isSome_get_video_by_id_append (db : List Video) (w : Video) (i : Int)
    (h : (get_video_by_id db i).isSome) : (get_video_by_id (db ++ [w]) i).isSome := by
  rw [get_video_by_id_append]
  obtain ⟨v, hv⟩ := Option.isSome_iff_exists.1 h
  rw [hv]
  rfl

theorem isSome_get_video_by_id_append_self (db : List Video) (w : Video) :
    (get_video_by_id (db ++ [w]) w.id).isSome := by
  rw [get_video_by_id_append]
  cases h : get_video_by_id db w.id with
  | none => simp [Option.orElse, get_video_by_id]
  | some v => rfl

/-- The store only grows during a reconciliation pass: ids present before the
pass are still present after it. -/
theorem track_all_videos_mono (dir : List FsFile) (db : List Video) (i : Int)
    (h : (get_video_by_id db i).isSome) :
    (get_video_by_id (track_all_videos db dir).1 i).isSome := by
  induction dir generalizing db with
  | nil => exact h
  | cons f rest ih =>
      unfold track_all_videos track_video
      cases hid : videoIdOfFile f with
      | error e =>
          dsimp only
          exact ih db h
      | ok vid =>
          dsimp only
          cases hget : get_video_by_id db vid with
          | some v => exact ih db h
          | none =>
              dsimp only [add_video]
              exact ih _ (isSome_get_video_by_id_append db _ i h)

/-- After one reconciliation pass, every directory entry whose stat succeeds
has its derived id present in the store. -/
theorem track_all_videos_covers (dir : List FsFile) (db : List Video) (f : FsFile) (sz : Nat)
    (hf : f ∈ dir) (hsz : f.size = some sz) :
    (get_video_by_id (track_all_videos db dir).1 (generate_video_id f.name sz)).isSome := by
  induction dir generalizing db with
  | nil => cases hf
  | cons g rest ih =>
      rcases List.mem_cons.1 hf with rfl | hmem
      · unfold track_all_videos track_video videoIdOfFile
        rw [hsz]
        dsimp only
        cases hget : get_video_by_id db (generate_video_id f.name sz) with
        | some v =>
            exact track_all_videos_mono rest db _ (by rw [hget]; rfl)
        | none =>
            dsimp only [add_video]
            refine track_all_videos_mono rest _ _ ?_
            exact isSome_get_video_by_id_append_self db _
      · unfold track_all_videos track_video
        cases hid : videoIdOfFile g with
        | error e =>
            dsimp only
            exact ih db hmem
        | ok vid =>
            dsimp only
            cases hget : get_video_by_id db vid with
            | some v => exact ih db hmem
            | none =>
                dsimp only [add_video]
                exact ih _ hmem

/-- A reconciliation pass over a directory whose successfully stat'ed entries
are all already catalogued adds nothing and leaves the store unchanged. -/
theorem track_all_videos_stable (dir : List FsFile) (db : List Video)
    (h : ∀ f ∈ dir, ∀ sz, f.size = some sz →
      (get_video_by_id db (generate_video_id f.name sz)).isSome) :
    (track_all_videos db dir).1 = db ∧ (track_all_videos db dir).2.added = [] := by
  induction dir with
  | nil => exact ⟨rfl, rfl⟩
  | cons f rest ih =>
      have hrest : ∀ g ∈ rest, ∀ sz, g.size = some sz →
          (get_video_by_id db (generate_video_id g.name sz)).isSome :=
        fun g hg => h g (List.mem_cons_of_mem f hg)
      unfold track_all_videos track_video videoIdOfFile
      cases hsz : f.size with
      | none =>
          dsimp only
          obtain ⟨h1, h2⟩ := ih hrest
          rw [h1, h2]
          exact ⟨rfl, rfl⟩
      | some sz =>
          dsimp only
          obtain ⟨v, hv⟩ := Option.isSome_iff_exists.1 (h f (List.mem_cons_self f rest) sz hsz)
          rw [hv]
          exact ih hrest

/-- Claim C3: reconciliation is idempotent — for every store and every
directory (including entries whose stat fails), running
`track_all_videos` twice in a row with the directory unchanged yields an
empty `added` sequence on the second run; re-scanning never creates a second
row for an already catalogued (filename, size) pair. -/
theorem c3_reconcile_idempotent (db : List Video) (dir : List FsFile) :
    (track_all_videos (track_all_videos db dir).1 dir).2.added = [] := by
  refine (track_all_videos_stable dir (track_all_videos db dir).1 ?_).2
  intro f hf sz hsz
  exact track_all_videos_covers dir db f sz hf hsz

/-! ## C9

The candidate names `base_clip`, `base_clip_1`, `base_clip_2`, … are pairwise
distinct, which needs the decimal rendering `Nat.repr` of the loop counter to
be injective; that is proved by evaluating the digit list back to the number
it denotes. -/

theorem toDigitsCore_append (fuel : Nat) : ∀ (n : Nat) (ds : List Char),
    Nat.toDigitsCore 10 fuel n ds = Nat.toDigitsCore 10 fuel n [] ++ ds := by
  induction fuel with
  | zero => intro n ds; rfl
  | succ fuel ih =>
      intro n ds
      simp only [Nat.toDigitsCore]
      by_cases h : n / 10 = 0
      · simp [h]
      · simp only [if_neg h]
        rw [ih (n / 10) [Nat.digitChar (n % 10)], ih (n / 10) (Nat.digitChar (n % 10) :: ds)]
        simp

theorem toDigitsCore_fuel_irrel (n : Nat) : ∀ f1 f2 : Nat, n < f1 → n < f2 →
    Nat.toDigitsCore 10 f1 n [] = Nat.toDigitsCore 10 f2 n [] := by
  induction n using Nat.strong_induction_on with
  | _ n ih =>
      intro f1 f2 h1 h2
      match f1, f2 with
      | a + 1, b + 1 =>
          simp only [Nat.toDigitsCore]
          by_cases h : n / 10 = 0
          · simp [h]
          · simp only [if_neg h]
            have hn : 0 < n := by
              rcases Nat.eq_zero_or_pos n with rfl | hp
              · simp at h
              · exact hp
            have hlt : n / 10 < n := Nat.div_lt_self hn (by norm_num)
            rw [toDigitsCore_append a, toDigitsCore_append b,
              ih (n / 10) hlt a b (by omega) (by omega)]

theorem digitVal_digitChar (d : Nat) (h : d < 10) : digitVal (Nat.digitChar d) = d := by
  interval_cases d <;> rfl

theorem strVal_toDigits (n : Nat) : strVal (Nat.toDigits 10 n) = n := by
  induction n using Nat.strong_induction_on with
  | _ n ih =>
      unfold Nat.toDigits
      simp only [Nat.toDigitsCore]
      by_cases h : n / 10 = 0
      · have hn : n < 10 := by omega
        simp only [if_pos h]
        have hv := digitVal_digitChar (n % 10) (Nat.mod_lt _ (by norm_num))
        simp only [strVal, List.foldl]
        rw [hv, Nat.mod_eq_of_lt hn]
        omega
      · simp only [if_neg h]
        have hn : 0 < n := by
          rcases Nat.eq_zero_or_pos n with rfl | hp
          · simp at h
          · exact hp
        have hlt : n / 10 < n := Nat.div_lt_self hn (by norm_num)
        rw [toDigitsCore_append n (n / 10)]
        rw [toDigitsCore_fuel_irrel (n / 10) n (n / 10 + 1) (by omega) (by omega)]
        have hrec : strVal (Nat.toDigits 10 (n / 10)) = n / 10 := ih (n / 10) hlt
        unfold Nat.toDigits at hrec
        simp only [strVal, List.foldl_append] at *
        rw [hrec]
        simp [List.foldl, digitVal_digitChar (n % 10) (Nat.mod_lt _ (by norm_num))]
        omega

theorem candidateName_injective (base : String) : Function.Injective (candidateName base) := by
  intro i j h
  match i, j with
  | 0, 0 => rfl
  | 0, j + 1 =>
      exfalso
      have hd := congrArg String.data h
      simp only [candidateName, String.data_append] at hd
      have hl := congrArg List.length hd
      simp [List.length_append] at hl
  | i + 1, 0 =>
      exfalso
      have hd := congrArg String.data h
      simp only [candidateName, String.data_append] at hd
      have hl := congrArg List.length hd
      simp [List.length_append] at hl
  | i + 1, j + 1 =>
      have hd := congrArg String.data h
      simp only [candidateName, String.data_append, List.append_assoc] at hd
      have h2 : (Nat.repr (i + 1)).data = (Nat.repr (j + 1)).data :=
        List.append_cancel_left (List.append_cancel_left hd)
      have h3 : Nat.toDigits 10 (i + 1) = Nat.toDigits 10 (j + 1) := h2
      have h4 := congrArg strVal h3
      rw [strVal_toDigits, strVal_toDigits] at h4
      omega

theorem candidateFile_injective (base : String) :
    Function.Injective (fun k => candidateName base k ++ ".mp4") := by
  intro i j h
  apply candidateName_injective base
  have hd := congrArg String.data h
  simp only [String.data_append] at hd
  have h2 := List.append_cancel_right hd
  cases he1 : candidateName base i with
  | mk d1 =>
      cases he2 : candidateName base j with
      | mk d2 =>
          rw [he1, he2] at h2
          simp at h2
          exact congrArg String.mk h2

/-- Among the first `existing.length + 1` candidates, at least one is free:
the candidates are pairwise distinct, so they cannot all be among the
`existing.length` occupied names. -/
theorem exists_free_candidate (existing : List String) (base : String) :
    ∃ k ≤ existing.length, candidateName base k ++ ".mp4" ∉ existing := by
  by_contra hcon
  push_neg at hcon
  have hsub : (Finset.range (existing.length + 1)).image
      (fun k => candidateName base k ++ ".mp4") ⊆ existing.toFinset := by
    intro x hx
    obtain ⟨k, hk, rfl⟩ := Finset.mem_image.1 hx
    exact List.mem_toFinset.2 (hcon k (Nat.lt_succ_iff.1 (Finset.mem_range.1 hk)))
  have hcard := Finset.card_le_card hsub
  rw [Finset.card_image_of_injective _ (candidateFile_injective base)] at hcard
  simp only [Finset.card_range] at hcard
  have := existing.toFinset_card_le
  omega

theorem findNameAux_finds (existing : List String) (base : String)
    (K : Nat) (hKfree : candidateName base K ++ ".mp4" ∉ existing)
    (hKleast : ∀ j < K, candidateName base j ++ ".mp4" ∈ existing) :
    ∀ fuel k0, k0 ≤ K → K < k0 + fuel →
      findNameAux existing base fuel k0 = candidateName base K := by
  intro fuel
  induction fuel with
  | zero => intro k0 h1 h2; omega
  | succ fuel ih =>
      intro k0 h1 h2
      unfold findNameAux
      by_cases hmem : candidateName base k0 ++ ".mp4" ∈ existing
      · rw [if_pos hmem]
        have hne : k0 ≠ K := fun he => hKfree (he ▸ hmem)
        exact ih (k0 + 1) (by omega) (by omega)
      · rw [if_neg hmem]
        have hge : ¬ k0 < K := fun hlt => hmem (hKleast k0 hlt)
        have heq : k0 = K := by omega
        rw [heq]

/-- Claim C9: for every state of the clips directory, the avoidance loop of
`ClipCreator.create_clip` returns the first candidate in the deterministic
sequence `base_clip`, `base_clip_1`, `base_clip_2`, … whose `.mp4` file is
not already present; that candidate's index is at most `existing.length`, so
at most `existing.length + 1` candidates are examined, the loop terminates
(the embedding's fuel is never exhausted), and the chosen filename is
distinct from every pre-existing file. -/
theorem c9_unique_clip_name (existing : List String) (base : String) :
    (find_unique_output_name existing base ++ ".mp4") ∉ existing ∧
    ∃ k, k ≤ existing.length ∧
      find_unique_output_name existing base = candidateName base k ∧
      ∀ j < k, candidateName base j ++ ".mp4" ∈ existing := by
  obtain ⟨k0, hk0le, hk0free⟩ := exists_free_candidate existing base
  have hex : ∃ k, candidateName base k ++ ".mp4" ∉ existing := ⟨k0, hk0free⟩
  have hKfree : candidateName base (Nat.find hex) ++ ".mp4" ∉ existing := Nat.find_spec hex
  have hKleast : ∀ j < Nat.find hex, candidateName base j ++ ".mp4" ∈ existing := by
    intro j hj
    have := Nat.find_min hex hj
    exact not_not.1 this
  have hKle : Nat.find hex ≤ existing.length := le_trans (Nat.find_min' hex hk0free) hk0le
  have heq : find_unique_output_name existing base = candidateName base (Nat.find hex) := by
    unfold find_unique_output_name
    exact findNameAux_finds existing base (Nat.find hex) hKfree hKleast
      (existing.length + 1) 0 (Nat.zero_le _) (by omega)
  refine ⟨?_, Nat.find hex, hKle, heq, hKleast⟩
  rw [heq]
  exact hKfree

/-! ## C6 -/

/-- If the try-body of the parser succeeds, none of the claim's failure
conditions held: the segment count was 3, every segment was numeric, and all
values were in range. -/
theorem convertTimeBody_ok_wellFormed (s : String) (x : ℚ)
    (hok : convertTimeBody (.str s) = .ok x) : ¬ timecodeBad s := by
  unfold convertTimeBody at hok
  dsimp only at hok
  by_cases hlen : (pySplit ':' ((pySplit '.' s).headD "")).length ≠ 3
  · rw [if_pos hlen] at hok
    cases hok
  · rw [if_neg hlen] at hok
    cases e0 : pyInt ((pySplit ':' ((pySplit '.' s).headD "")).getD 0 "") with
    | none => rw [e0] at hok; cases hok
    | some hrs =>
    cases e1 : pyInt ((pySplit ':' ((pySplit '.' s).headD "")).getD 1 "") with
    | none => rw [e0, e1] at hok; cases hok
    | some mins =>
    cases e2 : pyInt ((pySplit ':' ((pySplit '.' s).headD "")).getD 2 "") with
    | none => rw [e0, e1, e2] at hok; cases hok
    | some secs =>
    cases e3 : pyInt (pyLjust3Take3 (if (pySplit '.' s).length > 1 then
        (pySplit '.' s).getD 1 "" else "0")) with
    | none => rw [e0, e1, e2, e3] at hok; cases hok
    | some ms =>
    rw [e0, e1, e2, e3] at hok
    dsimp only at hok
    by_cases hr : 0 ≤ hrs ∧ hrs ≤ 23 ∧ 0 ≤ mins ∧ mins ≤ 59 ∧ 0 ≤ secs ∧ secs ≤ 59 ∧
        0 ≤ ms ∧ ms ≤ 999
    · intro hbad
      rcases hbad with hb | hb | hb | hb | hb | ⟨a, b, c, d, ha, hbb, hc, hd, hnr⟩
      · exact hlen hb
      · rw [timecodeSegments] at hb; rw [hb] at e0; cases e0
      · rw [timecodeSegments] at hb; rw [hb] at e1; cases e1
      · rw [timecodeSegments] at hb; rw [hb] at e2; cases e2
      · rw [timecodeMsSegment] at hb; rw [hb] at e3; cases e3
      · rw [timecodeSegments] at ha hbb hc
        rw [timecodeMsSegment] at hd
        rw [ha] at e0
        rw [hbb] at e1
        rw [hc] at e2
        rw [hd] at e3
        cases e0
        cases e1
        cases e2
        cases e3
        exact hnr hr
    · rw [if_neg hr] at hok
      cases hok

/-- Claim C6: `parse_timecode` fails for every non-string input, every wrong
segment count, every non-numeric segment, and every out-of-range segment
(hours outside `[0,23]`, minutes and seconds outside `[0,59]`, milliseconds
outside `[0,999]`) — in particular `"25:00:00"` fails — and in every failure
the raised message echoes the offending literal together with the expected
pattern `HH:MM:SS[.mmm]`. -/
theorem c6_parse_timecode_failures :
    (∀ typeName shown, convert_time_to_seconds (.nonStr typeName shown) =
      .error (timeFormatErrorMsg shown)) ∧
    (∀ s : String, timecodeBad s →
      convert_time_to_seconds (.str s) = .error (timeFormatErrorMsg s)) ∧
    (∀ shown, timeFormatErrorMsg shown =
      "Invalid time format \x27" ++ shown ++
        "\x27. Use HH:MM:SS[.mmm] (e.g., 00:01:30.500 for 1 minute 30.5 seconds)") ∧
    convert_time_to_seconds (.str "25:00:00") = .error (timeFormatErrorMsg "25:00:00") := by
  refine ⟨fun typeName shown => rfl, ?_, fun shown => rfl, by rfl⟩
  intro s hbad
  unfold convert_time_to_seconds
  cases hb : convertTimeBody (.str s) with
  | error e => rfl
  | ok x => exact absurd hbad (convertTimeBody_ok_wellFormed s x hb)

/-- Witness for C6: the second conjunct applied to `"0:0"` (wrong segment
count) and the first applied to the Python int `5`. -/
theorem c6_parse_timecode_failures_witness :
    convert_time_to_seconds (.str "0:0") = .error (timeFormatErrorMsg "0:0") ∧
    convert_time_to_seconds (.nonStr "<class int>" "5") = .error (timeFormatErrorMsg "5") := by
  constructor
  · exact c6_parse_timecode_failures.2.1 "0:0" (Or.inl (by decide))
  · exact c6_parse_timecode_failures.1 "<class int>" "5"

/-! ## C1

The code's `round(video_id / 1000) * 1000` rounds through double-precision
division, which is not the nearest multiple of 1000 half-up: the quotient is
first rounded to 53 significant bits (ties to even), and Python `round` then
rounds that double ties-to-even, not half-up.  For digest values below
`2 ^ 53` the two roundings compose to the exact round-to-nearest ties-even of
`v / 1000`; for larger digest values even the nearest multiple can be missed.
The lemmas below prove the composition result in integer arithmetic. -/

theorem rneDiv_eq_of_decomp (a b n r : Nat) (ha : a = b * n + r) (hr : r < b) :
    rneDiv a b =
      if 2 * r < b then n else if b < 2 * r then n + 1 else if n % 2 = 0 then n else n + 1 := by
  have hb : 0 < b := by omega
  subst ha
  unfold rneDiv
  rw [Nat.mul_add_div hb, Nat.div_eq_of_lt hr, Nat.add_zero, Nat.mul_add_mod,
    Nat.mod_eq_of_lt hr]

theorem rneDiv_cases (a b : Nat) (hb : 0 < b) :
    (rneDiv a b = a / b ∧ 2 * (a % b) ≤ b) ∨ (rneDiv a b = a / b + 1 ∧ b ≤ 2 * (a % b)) := by
  have hlt := Nat.mod_lt a hb
  have hdm := Nat.div_add_mod a b
  rw [rneDiv_eq_of_decomp a b (a / b) (a % b) (by omega) hlt]
  by_cases h1 : 2 * (a % b) < b
  · rw [if_pos h1]; exact Or.inl ⟨rfl, by omega⟩
  · rw [if_neg h1]
    by_cases h2 : b < 2 * (a % b)
    · rw [if_pos h2]; exact Or.inr ⟨rfl, by omega⟩
    · rw [if_neg h2]
      by_cases h3 : a / b % 2 = 0
      · rw [if_pos h3]; exact Or.inl ⟨rfl, by omega⟩
      · rw [if_neg h3]; exact Or.inr ⟨rfl, by omega⟩

/-- `rneDiv a b` differs from the exact quotient by at most one half:
`a / b - 1/2 ≤ rneDiv a b ≤ a / b + 1/2`, cleared of denominators. -/
theorem rneDiv_sandwich (a b : Nat) (hb : 0 < b) :
    2 * a ≤ 2 * (b * rneDiv a b) + b ∧ 2 * (b * rneDiv a b) ≤ 2 * a + b := by
  have hlt := Nat.mod_lt a hb
  have hdm := Nat.div_add_mod a b
  rcases rneDiv_cases a b hb with ⟨he, hc⟩ | ⟨he, hc⟩ <;> rw [he]
  · constructor <;> omega
  · rw [Nat.mul_add, Nat.mul_one]
    constructor <;> omega

/-- Shifting by an even multiple of the divisor commutes with ties-to-even
rounding (evenness keeps the tie-breaking choice aligned). -/
theorem rneDiv_add_mul_even (x b k : Nat) (hb : 0 < b) (hk : k % 2 = 0) :
    rneDiv (b * k + x) b = k + rneDiv x b := by
  have hlt := Nat.mod_lt x hb
  have hx := Nat.div_add_mod x b
  rw [rneDiv_eq_of_decomp (b * k + x) b (k + x / b) (x % b)
    (by rw [Nat.mul_add]; omega) hlt]
  rw [rneDiv_eq_of_decomp x b (x / b) (x % b) (by omega) hlt]
  by_cases h1 : 2 * (x % b) < b
  · rw [if_pos h1, if_pos h1]
  · rw [if_neg h1, if_neg h1]
    by_cases h2 : b < 2 * (x % b)
    · rw [if_pos h2, if_pos h2]
      omega
    · rw [if_neg h2, if_neg h2]
      by_cases h3 : x / b % 2 = 0
      · rw [if_pos h3, if_pos (show (k + x / b) % 2 = 0 by omega)]
      · rw [if_neg h3, if_neg (show ¬ (k + x / b) % 2 = 0 by omega)]
        omega

theorem rneDiv_mul (b k : Nat) (hb : 0 < b) : rneDiv (b * k) b = k := by
  rw [rneDiv_eq_of_decomp (b * k) b k 0 (by omega) hb]
  rw [if_pos (show 2 * 0 < b by omega)]

/-- The key double-rounding identity: rounding `v * D / 1000` to the nearest
integer (the 53-bit mantissa, `D = 2 ^ (52 - e)`) and then rounding the
resulting double `m / D` to the nearest integer — both ties to even — equals
the single exact rounding of `v / 1000`, provided `D ≥ 512`, i.e. the binade
exponent is small enough that half an ulp is below `1/2000`. -/
theorem rneDiv_double (n r D : Nat) (hr : r < 1000) (hD : 512 ≤ D) (hDeven : D % 2 = 0) :
    rneDiv (rneDiv ((1000 * n + r) * D) 1000) D = rneDiv (1000 * n + r) 1000 := by
  have hnD_even : (n * D) % 2 = 0 := by
    have h2 : n * D = 2 * (n * (D / 2)) := by
      calc n * D = n * (2 * (D / 2)) := by rw [show 2 * (D / 2) = D by omega]
        _ = 2 * (n * (D / 2)) := by ring
    omega
  have hexp : (1000 * n + r) * D = 1000 * (n * D) + r * D := by ring
  rw [hexp, rneDiv_add_mul_even (r * D) 1000 (n * D) (by norm_num) hnD_even]
  have hu := rneDiv_sandwich (r * D) 1000 (by norm_num)
  set u := rneDiv (r * D) 1000 with hudef
  have huD : u < D := by
    have h999 : r * D ≤ 999 * D := Nat.mul_le_mul_right D (by omega)
    omega
  rw [rneDiv_eq_of_decomp (n * D + u) D n u (by rw [Nat.mul_comm]) huD]
  rw [rneDiv_eq_of_decomp (1000 * n + r) 1000 n r rfl hr]
  by_cases hc1 : 2 * r < 1000
  · rw [if_pos hc1]
    have hbound : r * D ≤ 499 * D := Nat.mul_le_mul_right D (by omega)
    rw [if_pos (show 2 * u < D by omega)]
  · rw [if_neg hc1]
    by_cases hc2 : 1000 < 2 * r
    · rw [if_pos hc2]
      have hbound : 501 * D ≤ r * D := Nat.mul_le_mul_right D (by omega)
      rw [if_neg (show ¬ 2 * u < D by omega), if_pos (show D < 2 * u by omega)]
    · rw [if_neg hc2]
      have hr500 : r = 500 := by omega
      have hu2 : u = D / 2 := by
        rw [hudef, hr500, show 500 * D = 1000 * (D / 2) by omega,
          rneDiv_mul 1000 (D / 2) (by norm_num)]
      rw [if_neg (show ¬ 2 * u < D by omega), if_neg (show ¬ D < 2 * u by omega)]

theorem log2fuel_pow_le (fuel : Nat) : ∀ n, 1 ≤ n → 2 ^ log2fuel fuel n ≤ n := by
  induction fuel with
  | zero => intro n h; simpa using h
  | succ fuel ih =>
      intro n h
      unfold log2fuel
      by_cases h2 : n < 2
      · rw [if_pos h2]; simpa using h
      · rw [if_neg h2]
        have h1 : 1 ≤ n / 2 := by omega
        have hrec := ih (n / 2) h1
        calc 2 ^ (log2fuel fuel (n / 2) + 1) = 2 ^ log2fuel fuel (n / 2) * 2 := by
              rw [pow_succ]
          _ ≤ n / 2 * 2 := Nat.mul_le_mul_right 2 hrec
          _ ≤ n := by omega

theorem floorLog2_pow_le (n : Nat) (h : 1 ≤ n) : 2 ^ floorLog2 n ≤ n :=
  log2fuel_pow_le n n h

theorem binadeExp_le (v : Nat) (h : v < 2 ^ 53) : binadeExp v ≤ 43 := by
  unfold binadeExp
  by_cases h1 : 1000 ≤ v
  · rw [if_pos h1]
    have hq1 : 1 ≤ v / 1000 := by omega
    have hle := floorLog2_pow_le (v / 1000) hq1
    have hlt : v / 1000 < 2 ^ 44 := by norm_num at h ⊢; omega
    have hfl : floorLog2 (v / 1000) ≤ 43 := by
      by_contra hc
      push_neg at hc
      have hpow : (2 : Nat) ^ 44 ≤ 2 ^ floorLog2 (v / 1000) :=
        Nat.pow_le_pow_right (by norm_num) hc
      omega
    omega
  · rw [if_neg h1]
    omega

/-- Below `2 ^ 53` the double-precision path computes the exact
round-to-nearest ties-to-even of `v / 1000`. -/
theorem pyRoundDiv1000_eq_rneDiv (v : Nat) (h : v < 2 ^ 53) :
    pyRoundDiv1000 v = rneDiv v 1000 := by
  by_cases hv : v = 0
  · subst hv; rfl
  · unfold pyRoundDiv1000
    rw [if_neg hv]
    have he := binadeExp_le v h
    rw [if_pos (show binadeExp v ≤ 52 by omega)]
    dsimp only
    have hd9 : 9 ≤ ((52 : Int) - binadeExp v).toNat := by omega
    set d := ((52 : Int) - binadeExp v).toNat with hddef
    have hD : 512 ≤ 2 ^ d := by
      calc (512 : Nat) = 2 ^ 9 := by norm_num
        _ ≤ 2 ^ d := Nat.pow_le_pow_right (by norm_num) hd9
    have hDeven : 2 ^ d % 2 = 0 := by
      have hsplit : (2 : Nat) ^ d = 2 * 2 ^ (d - 1) := by
        rw [← pow_succ']
        congr 1
        omega
      omega
    have hveq : v = 1000 * (v / 1000) + v % 1000 := by omega
    have hgoal := rneDiv_double (v / 1000) (v % 1000) (2 ^ d) (by omega) hD hDeven
    rw [← hveq] at hgoal
    exact hgoal

/-- Counterexample to claim C1 as stated: on `("demo.mp4", 2)` the first 8
MD5 digest bytes give `v = 1822125807630461479`; the nearest multiple of
1000 (ties half-up, as the claim words it) is `…461000`, but the code's
float path returns `…462000`: the double nearest to `v / 1000` is the
half-integer `…461.5` (the quotient has only 53 significant bits), which
Python `round` then takes to the even side, upward past the true remainder
479. -/
theorem c1_half_up_counterexample :
    generate_video_id "demo.mp4" 2 ≠ specDeriveId "demo.mp4" 2 ∧
    generate_video_id "demo.mp4" 2 = 1822125807630462000 ∧
    specDeriveId "demo.mp4" 2 = 1822125807630461000 := by
  refine ⟨by decide, by decide, by decide⟩

/-- Claim C1 amended: the identity deriver is deterministic (it is the pure
function `generate_video_id` of the filename and byte size alone) and equals
the fixed algorithm: filename and size joined by `"_"`, MD5 over the UTF-8
bytes, first 8 digest bytes big-endian as `v`, then `round(v / 1000) * 1000`
computed through IEEE-754 double division and Python's banker's rounding.
Whenever `v < 2 ^ 53` that rounding is exactly the nearest multiple of 1000
with ties to even — not ties half-up — and the result is always a multiple
of 1000. -/
theorem c1_identity_deriver (filename : String) (size : Nat)
    (h : md5First8 (filename ++ "_" ++ Nat.repr size) < 2 ^ 53) :
    generate_video_id filename size =
      rneDiv (md5First8 (filename ++ "_" ++ Nat.repr size)) 1000 * 1000 ∧
    generate_video_id filename size % 1000 = 0 := by
  constructor
  · unfold generate_video_id
    rw [pyRoundDiv1000_eq_rneDiv _ h]
  · exact Nat.mul_mod_left _ 1000

/-- Witness for C1: `("demo.mp4", 4711)` has digest value
`v = 1475189081983035 < 2 ^ 53`, and the derived id is
`rneDiv v 1000 * 1000 = 1475189081983000`. -/
theorem c1_identity_deriver_witness :
    md5First8 ("demo.mp4" ++ "_" ++ Nat.repr 4711) < 2 ^ 53 ∧
    generate_video_id "demo.mp4" 4711 =
      rneDiv (md5First8 ("demo.mp4" ++ "_" ++ Nat.repr 4711)) 1000 * 1000 ∧
    generate_video_id "demo.mp4" 4711 % 1000 = 0 := by
  refine ⟨by decide, (c1_identity_deriver "demo.mp4" 4711 (by decide)).1,
    (c1_identity_deriver "demo.mp4" 4711 (by decide)).2⟩

end TgVideo
